import Mathlib

set_option autoImplicit false

/-!
Verification of the string-analyzer service core (NestJS `StringsService`):
the property computer `computeProperties`, the record matcher underlying
`findAll`, and the natural-language query interpreter
`parseNaturalLanguageQuery`, embedded shallowly in Lean.

JavaScript strings are modelled as lists of UTF-16 code units
(`List Nat`, each entry below 2^16).  This mirrors the semantics of the
source language: `value.length` counts code units, while `for ... of`
iteration and `new Set(value)` walk code points (pairing surrogates), so
the two units genuinely differ on astral characters and the model keeps
that distinction.  `String.prototype.toLowerCase` is modelled by its
ASCII action (the only case-folding the interpreter patterns and all
concrete inputs in the specification exercise).
-/

namespace StringAnalyzer

/-- A JavaScript string: its sequence of UTF-16 code units. -/
abbrev JSStr := List Nat

/-- UTF-16 encoding of one Unicode scalar value (one or two code units). -/
def utf16Encode (c : Char) : List Nat :=
  if c.val.toNat < 0x10000 then [c.val.toNat]
  else [0xD800 + (c.val.toNat - 0x10000) / 0x400,
        0xDC00 + (c.val.toNat - 0x10000) % 0x400]

/-- Embed a Lean string literal as a JavaScript string (UTF-16 code units). -/
def jstr (s : String) : JSStr := (s.toList.map utf16Encode).flatten

/-- The code-unit set matched by the JavaScript regular-expression class
`\s` (also the set removed by `String.prototype.trim`); every member is a
single BMP code unit. -/
def jsIsWhitespace (u : Nat) : Bool :=
  u == 9 || u == 10 || u == 11 || u == 12 || u == 13 || u == 32 ||
  u == 0xA0 || u == 0x1680 ||
  (decide (0x2000 ≤ u) && decide (u ≤ 0x200A)) ||
  u == 0x2028 || u == 0x2029 || u == 0x202F || u == 0x205F ||
  u == 0x3000 || u == 0xFEFF

/-- ASCII action of `String.prototype.toLowerCase` on one code unit. -/
def jsToLower (u : Nat) : Nat :=
  if 65 ≤ u ∧ u ≤ 90 then u + 32 else u

/-- `query.toLowerCase()`. -/
def lowerJS (s : JSStr) : JSStr := s.map jsToLower

/-- JavaScript string iteration (`for (const char of value)`): walks the
code units, pairing a high surrogate followed by a low surrogate into one
astral code point and passing lone surrogates through. -/
def codePoints : JSStr → List Nat
  | [] => []
  | [u] => [u]
  | u :: v :: rest2 =>
    if (0xD800 ≤ u ∧ u ≤ 0xDBFF) ∧ (0xDC00 ≤ v ∧ v ≤ 0xDFFF) then
      (0x10000 + (u - 0xD800) * 0x400 + (v - 0xDC00)) :: codePoints rest2
    else u :: codePoints (v :: rest2)

/-- `value.trim()`: drop leading and trailing whitespace code units. -/
def trimJS (s : JSStr) : JSStr :=
  ((s.dropWhile jsIsWhitespace).reverse.dropWhile jsIsWhitespace).reverse

/-- Splitting on single whitespace code units.  The source splits with
`value.split(/\s+/)`, i.e. on maximal whitespace runs; the two results
differ only by empty pieces between consecutive whitespace characters,
and `computeProperties` immediately filters out every empty piece
(`.filter((word) => word.length > 0)`), so the composite `wordsOf` below
is exactly the list `words` of the source. -/
def splitWsSingle : JSStr → List JSStr
  | [] => [[]]
  | u :: rest =>
    if jsIsWhitespace u then [] :: splitWsSingle rest
    else
      match splitWsSingle rest with
      | w :: ws => (u :: w) :: ws
      | [] => [[u]]

/-- The list `words` of `computeProperties`:
`value.trim().split(/\s+/).filter((word) => word.length > 0)`. -/
def wordsOf (value : JSStr) : List JSStr :=
  (splitWsSingle (trimJS value)).filter (fun w => w.length != 0)

/-- One step of building the character frequency map:
`character_frequency_map[char] = (character_frequency_map[char] || 0) + 1`.
JavaScript objects keep string keys in insertion order, so the map is an
association list keyed by code point, first occurrence first. -/
def incFreq : List (Nat × Nat) → Nat → List (Nat × Nat)
  | [], c => [(c, 1)]
  | (k, n) :: rest, c =>
    if k = c then (k, n + 1) :: rest else (k, n) :: incFreq rest c

/-- The derived property set of `computeProperties`.  The field
`sha256_hash` of the source (a call into the external `crypto` library)
is not modelled; no claim under verification mentions it. -/
structure StringProperties where
  length : Nat
  is_palindrome : Bool
  unique_characters : Nat
  word_count : Nat
  character_frequency_map : List (Nat × Nat)
deriving Repr, DecidableEq

/-- `StringsService.computeProperties`, statement by statement:
`length` is `value.length` (code units); the palindrome check lowercases,
removes `\s` code units and compares with the code-unit reversal
(`split('').reverse().join('')`); `unique_characters` is
`new Set(value).size` (distinct code points); `word_count` counts the
non-empty pieces of `value.trim().split(/\s+/)`; the frequency map
iterates `for (const char of value)` (code points). -/
def computeProperties (value : JSStr) : StringProperties :=
  let length := value.length
  let normalizedValue := (value.map jsToLower).filter (fun u => !jsIsWhitespace u)
  let reversedValue := normalizedValue.reverse
  let is_palindrome := normalizedValue == reversedValue
  let unique_characters := (codePoints value).eraseDups.length
  let words := wordsOf value
  let word_count := words.length
  let character_frequency_map := (codePoints value).foldl incFreq []
  { length := length, is_palindrome := is_palindrome,
    unique_characters := unique_characters, word_count := word_count,
    character_frequency_map := character_frequency_map }

/-- The structured filter `FilterStringsDto`: every field optional.  The
length and word-count fields are integers (the interpreter computes
`parseInt(...) - 1`, which can be negative); `contains_character` is a
string. -/
structure FilterStringsDto where
  is_palindrome : Option Bool := none
  min_length : Option Int := none
  max_length : Option Int := none
  word_count : Option Int := none
  contains_character : Option JSStr := none
deriving Repr, DecidableEq

/-- A stored record (`AnalyzedString` entity): primary key `id`, the raw
`value`, the computed `properties` and a creation timestamp. -/
structure AnalyzedString where
  id : JSStr
  value : JSStr
  properties : StringProperties
  created_at : Nat
deriving Repr, DecidableEq

/-- SQL `LIKE` pattern matching (PostgreSQL semantics) over sequences of
characters: `%` matches any sequence, `_` matches any single character,
the default escape character `\` makes the following pattern character
literal, and any other pattern character matches itself.  A pattern that
ends in a bare escape character matches nothing. -/
def likeMatch : List Nat → List Nat → Bool
  | [], s => s.isEmpty
  | p :: ps, s =>
    if p = 37 then
      s.tails.any (fun s2 => likeMatch ps s2)
    else if p = 95 then
      match s with
      | [] => false
      | _ :: s2 => likeMatch ps s2
    else if p = 92 then
      match ps with
      | [] => false
      | q :: ps2 =>
        match s with
        | [] => false
        | c :: s2 => (c == q) && likeMatch ps2 s2
    else
      match s with
      | [] => false
      | c :: s2 => (c == p) && likeMatch ps s2

/-- The `is_palindrome` clause of `findAll`: added only when the filter
field is present (`!== undefined`), equality against the stored
property. -/
def clausePalindrome (r : AnalyzedString) (f : FilterStringsDto) : Bool :=
  match f.is_palindrome with
  | some b => r.properties.is_palindrome == b
  | none => true

/-- The `min_length` clause of `findAll`: inclusive lower bound on the
stored `length`. -/
def clauseMinLength (r : AnalyzedString) (f : FilterStringsDto) : Bool :=
  match f.min_length with
  | some n => decide (n ≤ (r.properties.length : Int))
  | none => true

/-- The `max_length` clause of `findAll`: inclusive upper bound on the
stored `length`. -/
def clauseMaxLength (r : AnalyzedString) (f : FilterStringsDto) : Bool :=
  match f.max_length with
  | some n => decide ((r.properties.length : Int) ≤ n)
  | none => true

/-- The `word_count` clause of `findAll`: equality against the stored
`word_count`. -/
def clauseWordCount (r : AnalyzedString) (f : FilterStringsDto) : Bool :=
  match f.word_count with
  | some n => (r.properties.word_count : Int) == n
  | none => true

/-- The `contains_character` clause of `findAll`:
`string.value LIKE '%' || contains_character || '%'`.  The clause is
only added when the field is truthy in JavaScript, i.e. present and
non-empty.  `LIKE` compares character by character, so the stored value
and the pattern enter as their code points. -/
def clauseContainsCharacter (r : AnalyzedString) (f : FilterStringsDto) : Bool :=
  match f.contains_character with
  | some c =>
    if c.isEmpty then true
    else likeMatch (codePoints (jstr ("%") ++ c ++ jstr ("%"))) (codePoints r.value)
  | none => true

/-- The conjunction of the five `andWhere` clauses built by `findAll`:
a record is returned exactly when every present filter field accepts
it. -/
def matchesRecord (r : AnalyzedString) (f : FilterStringsDto) : Bool :=
  clausePalindrome r f && clauseMinLength r f && clauseMaxLength r f &&
  clauseWordCount r f && clauseContainsCharacter r f

/-- `findAll` restricted to its pure content: the records of the store
that satisfy every present filter clause.  (The source additionally
orders the result by `created_at` descending; no claim under
verification depends on the ordering.) -/
def findAll (store : List AnalyzedString) (f : FilterStringsDto) : List AnalyzedString :=
  store.filter (fun r => matchesRecord r f)

/-- `lowerQuery.includes(needle)`: the needle occurs as a contiguous
substring, i.e. as a prefix of some suffix. -/
def containsSub (hay needle : JSStr) : Bool :=
  hay.tails.any (fun t => needle.isPrefixOf t)

/-- Leftmost regular-expression search: try to match at each start
position of the text, leftmost success first (the final position, the
empty suffix, is tried as well). -/
def scanPositions {α : Type} (f : JSStr → Option α) : JSStr → Option α
  | [] => f []
  | u :: rest =>
    match f (u :: rest) with
    | some r => some r
    | none => scanPositions f rest

/-- An ASCII decimal digit (`\d`). -/
def isDigitU (u : Nat) : Bool := decide (48 ≤ u ∧ u ≤ 57)

/-- The number denoted by a non-empty digit run (`parseInt(_, 10)`). -/
def digitsToNat (ds : List Nat) : Nat :=
  ds.foldl (fun a u => a * 10 + (u - 48)) 0

/-- Matching `<lit>(\d+)` at one position: the literal, then a maximal
non-empty digit run, whose value is captured. -/
def matchNumAfter (lit l : JSStr) : Option Nat :=
  if lit.isPrefixOf l then
    let ds := (l.drop lit.length).takeWhile isDigitU
    if ds.isEmpty then none else some (digitsToNat ds)
  else none

/-- `lowerQuery.match(/longer than (\d+)/)`, capture group as a number. -/
def findLongerThan (lq : JSStr) : Option Nat :=
  scanPositions (matchNumAfter (jstr ("longer than "))) lq

/-- `lowerQuery.match(/shorter than (\d+)/)`, capture group as a number. -/
def findShorterThan (lq : JSStr) : Option Nat :=
  scanPositions (matchNumAfter (jstr ("shorter than "))) lq

/-- Matching `length (?:of )?(\d+)` at one position: the literal
`length `, then greedily the optional `of ` (with backtracking when no
digit follows), then a non-empty digit run. -/
def matchExactLengthAt (l : JSStr) : Option Nat :=
  if (jstr ("length ")).isPrefixOf l then
    let rest := l.drop 7
    match (if (jstr ("of ")).isPrefixOf rest then
             let ds := (rest.drop 3).takeWhile isDigitU
             if ds.isEmpty then none else some (digitsToNat ds)
           else none) with
    | some n => some n
    | none =>
      let ds := rest.takeWhile isDigitU
      if ds.isEmpty then none else some (digitsToNat ds)
  else none

/-- `lowerQuery.match(/length (?:of )?(\d+)/)`, capture as a number. -/
def findExactLength (lq : JSStr) : Option Nat :=
  scanPositions matchExactLengthAt lq

/-- A captured `[a-z]` at the head of the text. -/
def letterAt : JSStr → Option Nat
  | [] => none
  | u :: _ => if 97 ≤ u ∧ u ≤ 122 then some u else none

/-- The tail `(?:letter |character )?([a-z])` of the containment regular
expression, with backtracking through the optional group. -/
def afterOptLetterWord (l : JSStr) : Option Nat :=
  (if (jstr ("letter ")).isPrefixOf l then letterAt (l.drop 7) else none) <|>
  (if (jstr ("character ")).isPrefixOf l then letterAt (l.drop 10) else none) <|>
  letterAt l

/-- The tail `(?:the )?(?:letter |character )?([a-z])`, with
backtracking through the optional group. -/
def afterOptThe (l : JSStr) : Option Nat :=
  (if (jstr ("the ")).isPrefixOf l then afterOptLetterWord (l.drop 4) else none) <|>
  afterOptLetterWord l

/-- The mandatory space of the containment regular expression followed
by its tail. -/
def afterContainSpace : JSStr → Option Nat
  | 32 :: rest => afterOptThe rest
  | _ => none

/-- Matching `contain(?:ing|s)? (?:the )?(?:letter |character )?([a-z])`
at one position, with backtracking through each optional group. -/
def matchContainsAt (l : JSStr) : Option Nat :=
  if (jstr ("contain")).isPrefixOf l then
    let rest := l.drop 7
    (if (jstr ("ing")).isPrefixOf rest then afterContainSpace (rest.drop 3) else none) <|>
    (if (jstr ("s")).isPrefixOf rest then afterContainSpace (rest.drop 1) else none) <|>
    afterContainSpace rest
  else none

/-- `lowerQuery.match(/contain(?:ing|s)? (?:the )?(?:letter |character )?([a-z])/)`,
capture group. -/
def findContainsLetter (lq : JSStr) : Option Nat :=
  scanPositions matchContainsAt lq

/-- Rule 1 of `parseNaturalLanguageQuery`: palindrome detection. -/
def rulePalindrome (lq : JSStr) (f : FilterStringsDto) : FilterStringsDto :=
  if containsSub lq (jstr ("palindrom")) ||
     containsSub lq (jstr ("reads same forwards and backwards")) then
    { f with is_palindrome := some true }
  else f

/-- Rule 2: word-count detection, first match wins. -/
def ruleWordCount (lq : JSStr) (f : FilterStringsDto) : FilterStringsDto :=
  if containsSub lq (jstr ("single word")) || containsSub lq (jstr ("one word")) then
    { f with word_count := some 1 }
  else if containsSub lq (jstr ("two word")) || containsSub lq (jstr ("2 word")) then
    { f with word_count := some 2 }
  else if containsSub lq (jstr ("three word")) || containsSub lq (jstr ("3 word")) then
    { f with word_count := some 3 }
  else f

/-- Rule 3: `longer than N` sets `min_length = N + 1`. -/
def ruleLongerThan (lq : JSStr) (f : FilterStringsDto) : FilterStringsDto :=
  match findLongerThan lq with
  | some n => { f with min_length := some ((n : Int) + 1) }
  | none => f

/-- Rule 4: `shorter than N` sets `max_length = N - 1`. -/
def ruleShorterThan (lq : JSStr) (f : FilterStringsDto) : FilterStringsDto :=
  match findShorterThan lq with
  | some n => { f with max_length := some ((n : Int) - 1) }
  | none => f

/-- Rule 5: `length [of] N` sets both `min_length` and `max_length` to
`N`. -/
def ruleExactLength (lq : JSStr) (f : FilterStringsDto) : FilterStringsDto :=
  match findExactLength lq with
  | some n => { f with min_length := some (n : Int), max_length := some (n : Int) }
  | none => f

/-- Rule 6: an explicit contained letter sets `contains_character`. -/
def ruleContainsLetter (lq : JSStr) (f : FilterStringsDto) : FilterStringsDto :=
  match findContainsLetter lq with
  | some c => { f with contains_character := some [c] }
  | none => f

/-- Rule 7: the phrase `first vowel` sets `contains_character = 'a'`. -/
def ruleFirstVowel (lq : JSStr) (f : FilterStringsDto) : FilterStringsDto :=
  if containsSub lq (jstr ("first vowel")) then
    { f with contains_character := some (jstr ("a")) }
  else f

/-- Rule 8: when the text contains `vowel`, scan `a, e, i, o, u` in that
order and set `contains_character` to the first vowel occurring in the
query text itself (`for (const vowel of vowels) { if
(lowerQuery.includes(vowel)) { ...; break; } }`). -/
def ruleVowelScan (lq : JSStr) (f : FilterStringsDto) : FilterStringsDto :=
  if containsSub lq (jstr ("vowel")) then
    match [97, 101, 105, 111, 117].find? (fun v => containsSub lq [v]) with
    | some v => { f with contains_character := some [v] }
    | none => f
  else f

/-- `StringsService.parseNaturalLanguageQuery`: lowercase the query once,
then apply the eight rules in source order to the accumulating filter
object, later assignments overwriting earlier ones. -/
def parseNaturalLanguageQuery (query : JSStr) : FilterStringsDto :=
  let lowerQuery := lowerJS query
  ruleVowelScan lowerQuery
    (ruleFirstVowel lowerQuery
      (ruleContainsLetter lowerQuery
        (ruleExactLength lowerQuery
          (ruleShorterThan lowerQuery
            (ruleLongerThan lowerQuery
              (ruleWordCount lowerQuery
                (rulePalindrome lowerQuery {})))))))

/-- `Object.keys(filters).length === 0`: no rule assigned any field. -/
def isEmptyFilter (f : FilterStringsDto) : Bool :=
  f.is_palindrome.isNone && f.min_length.isNone && f.max_length.isNone &&
  f.word_count.isNone && f.contains_character.isNone

/-- The successful result shape of `filterByNaturalLanguage`. -/
structure NlFilterResult where
  data : List AnalyzedString
  count : Nat
  parsed_filters : FilterStringsDto
deriving Repr, DecidableEq

/-- `StringsService.filterByNaturalLanguage`: parse the query, throw
`BadRequestException` when the parsed filter object is empty, otherwise
apply the parsed filters through `findAll`. -/
def filterByNaturalLanguage (store : List AnalyzedString) (queryText : JSStr) :
    Except String NlFilterResult :=
  let filters := parseNaturalLanguageQuery queryText
  if isEmptyFilter filters then
    Except.error ("Unable to parse natural language query")
  else
    let data := findAll store filters
    Except.ok { data := data, count := data.length, parsed_filters := filters }

/-- Merge of two filters, later fields winning (JavaScript object spread
`{...f1, ...f2}`); under disjointness of present fields the direction is
immaterial. -/
def mergeFilters (f1 f2 : FilterStringsDto) : FilterStringsDto :=
  { is_palindrome := f2.is_palindrome <|> f1.is_palindrome,
    min_length := f2.min_length <|> f1.min_length,
    max_length := f2.max_length <|> f1.max_length,
    word_count := f2.word_count <|> f1.word_count,
    contains_character := f2.contains_character <|> f1.contains_character }

/-- No field is present in both filters. -/
def disjointFields (f1 f2 : FilterStringsDto) : Bool :=
  (f1.is_palindrome.isNone || f2.is_palindrome.isNone) &&
  (f1.min_length.isNone || f2.min_length.isNone) &&
  (f1.max_length.isNone || f2.max_length.isNone) &&
  (f1.word_count.isNone || f2.word_count.isNone) &&
  (f1.contains_character.isNone || f2.contains_character.isNone)

/-- Token counter following the wording of the specification: the number
of maximal whitespace-delimited non-empty tokens, counted by scanning
with a flag recording whether the scanner currently stands inside a
token (each token is counted once, at its first character). -/
def countTokensAux : JSStr → Bool → Nat
  | [], _ => 0
  | u :: rest, inWord =>
    if jsIsWhitespace u then countTokensAux rest false
    else (if inWord then 0 else 1) + countTokensAux rest true

/-- The number of maximal whitespace-delimited non-empty tokens of a
string (the specification notion of word count). -/
def specTokenCount (s : JSStr) : Nat := countTokensAux s false

/-- The total of all values of a character frequency map. -/
def freqSum (m : List (Nat × Nat)) : Nat := (m.map Prod.snd).sum

/-! ### Helper lemmas about `includes` (substring containment) -/

theorem containsSub_infix_iff (hay needle : JSStr) :
    containsSub hay needle = true ↔ needle <:+: hay := by
  unfold containsSub
  rw [List.any_eq_true, List.infix_iff_prefix_suffix]
  constructor
  · rintro ⟨t, ht, hp⟩
    exact ⟨t, List.isPrefixOf_iff_prefix.mp hp, (List.mem_tails t hay).mp ht⟩
  · rintro ⟨t, hp, hs⟩
    exact ⟨t, (List.mem_tails t hay).mpr hs, List.isPrefixOf_iff_prefix.mpr hp⟩

theorem containsSub_singleton (l : JSStr) (a : Nat) :
    containsSub l [a] = true ↔ a ∈ l := by
  rw [containsSub_infix_iff]
  constructor
  · intro h
    exact h.subset (by simp)
  · intro h
    obtain ⟨s, t, rfl⟩ := List.append_of_mem h
    exact ⟨s, t, by simp⟩

theorem mem_of_containsSub {l sub : JSStr} (h : containsSub l sub = true) :
    ∀ a ∈ sub, a ∈ l := by
  rw [containsSub_infix_iff] at h
  exact fun a ha => h.subset ha

theorem containsSub_trans {l m sub : JSStr} (h1 : containsSub l m = true)
    (h2 : containsSub m sub = true) : containsSub l sub = true := by
  rw [containsSub_infix_iff] at *
  exact h2.trans h1

/-! ### Helper lemmas about the frequency map and code points -/

theorem freqSum_incFreq (m : List (Nat × Nat)) (c : Nat) :
    freqSum (incFreq m c) = freqSum m + 1 := by
  induction m with
  | nil => simp [incFreq, freqSum]
  | cons kv rest ih =>
    obtain ⟨k, n⟩ := kv
    by_cases h : k = c <;> simp [incFreq, h, freqSum] at * <;> omega

theorem freqSum_foldl (l : List Nat) (m : List (Nat × Nat)) :
    freqSum (l.foldl incFreq m) = freqSum m + l.length := by
  induction l generalizing m with
  | nil => simp
  | cons c rest ih =>
    rw [List.foldl_cons, ih, freqSum_incFreq]
    simp
    omega

theorem codePoints_of_no_surrogate :
    ∀ s : JSStr, (∀ u ∈ s, ¬(0xD800 ≤ u ∧ u ≤ 0xDBFF)) → codePoints s = s
  | [], _ => rfl
  | [_], _ => rfl
  | u :: v :: rest2, h => by
    have hu := h u (by simp)
    rw [codePoints, if_neg (by tauto)]
    rw [codePoints_of_no_surrogate (v :: rest2) (fun w hw => h w (by simp at hw ⊢; tauto))]

/-! ### Helper lemmas about SQL LIKE -/

theorem likeMatch_percent_only (s : List Nat) : likeMatch [37] s = true := by
  rw [likeMatch.eq_def]
  simp only [List.any_eq_true, reduceIte]
  exact ⟨[], (List.mem_tails _ _).mpr List.nil_suffix, rfl⟩

theorem likeMatch_notmeta_nil (p : Nat) (h37 : p ≠ 37) (h95 : p ≠ 95) (h92 : p ≠ 92) :
    likeMatch [p, 37] [] = false := by
  rw [likeMatch.eq_def]
  simp only [if_neg h37, if_neg h95, if_neg h92]

theorem likeMatch_notmeta_cons (p : Nat) (h37 : p ≠ 37) (h95 : p ≠ 95) (h92 : p ≠ 92)
    (c : Nat) (t2 : List Nat) : likeMatch [p, 37] (c :: t2) = (c == p) := by
  rw [likeMatch.eq_def]
  simp only [if_neg h37, if_neg h95, if_neg h92]
  simp [likeMatch_percent_only]

theorem likeMatch_single_pattern_mem (p : Nat) (h37 : p ≠ 37) (h95 : p ≠ 95)
    (h92 : p ≠ 92) (s : List Nat) :
    likeMatch [37, p, 37] s = true ↔ p ∈ s := by
  rw [likeMatch.eq_def]
  simp only [List.any_eq_true, reduceIte]
  constructor
  · rintro ⟨t, ht, hmt⟩
    cases t with
    | nil => rw [likeMatch_notmeta_nil p h37 h95 h92] at hmt; exact absurd hmt (by simp)
    | cons c t2 =>
      rw [likeMatch_notmeta_cons p h37 h95 h92] at hmt
      simp at hmt
      have hsuf : (c :: t2) <:+ s := (List.mem_tails _ _).mp ht
      exact hsuf.subset (by simp [hmt])
  · intro hmem
    obtain ⟨s1, s2, rfl⟩ := List.append_of_mem hmem
    refine ⟨p :: s2, (List.mem_tails _ _).mpr ⟨s1, rfl⟩, ?_⟩
    rw [likeMatch_notmeta_cons p h37 h95 h92]
    simp

/-! ### Helper lemmas about word counting -/

theorem splitWsSingle_ne_nil (s : JSStr) : splitWsSingle s ≠ [] := by
  cases s with
  | nil => simp [splitWsSingle]
  | cons u rest =>
    by_cases h : jsIsWhitespace u <;> simp only [splitWsSingle, h]
    · simp
    · simp only [Bool.false_eq_true, if_false]
      split <;> simp

theorem splitWsSingle_filter_length (s : JSStr) :
    (((splitWsSingle s).filter (fun w => w.length != 0)).length =
      countTokensAux s false) ∧
    ((((splitWsSingle s).drop 1).filter (fun w => w.length != 0)).length =
      countTokensAux s true) := by
  induction s with
  | nil => simp [splitWsSingle, countTokensAux]
  | cons u rest ih =>
    by_cases h : jsIsWhitespace u
    · simp only [splitWsSingle, countTokensAux, h, if_true]
      constructor
      · simpa using ih.1
      · simpa using ih.1
    · obtain ⟨w, ws, hws⟩ : ∃ w ws, splitWsSingle rest = w :: ws := by
        cases hsp : splitWsSingle rest with
        | nil => exact absurd hsp (splitWsSingle_ne_nil rest)
        | cons w ws => exact ⟨w, ws, rfl⟩
      have ih2 := ih.2
      rw [hws] at ih2
      simp only [List.drop_one, List.tail_cons] at ih2
      simp only [splitWsSingle, countTokensAux, h, if_false, Bool.false_eq_true, hws]
      constructor
      · simp [ih2]
        omega
      · simpa using ih2

theorem countTokensAux_all_ws (t : JSStr) (ht : ∀ u ∈ t, jsIsWhitespace u = true)
    (b : Bool) : countTokensAux t b = 0 := by
  induction t generalizing b with
  | nil => rfl
  | cons u rest ih =>
    have hu := ht u (by simp)
    simp only [countTokensAux, hu, if_true]
    exact ih (fun w hw => ht w (by simp [hw])) false

theorem countTokensAux_append_ws (l t : JSStr)
    (ht : ∀ u ∈ t, jsIsWhitespace u = true) (b : Bool) :
    countTokensAux (l ++ t) b = countTokensAux l b := by
  induction l generalizing b with
  | nil => simpa [countTokensAux] using countTokensAux_all_ws t ht b
  | cons u rest ih =>
    by_cases h : jsIsWhitespace u <;> simp [countTokensAux, h, ih]

theorem countTokensAux_dropWhile_ws (s : JSStr) :
    countTokensAux (s.dropWhile jsIsWhitespace) false = countTokensAux s false := by
  induction s with
  | nil => rfl
  | cons u rest ih =>
    by_cases h : jsIsWhitespace u <;>
      simp [List.dropWhile_cons, countTokensAux, h, ih]

theorem rev_trim_decomp (p : Nat → Bool) (m : JSStr) :
    (m.reverse.dropWhile p).reverse ++ (m.reverse.takeWhile p).reverse = m := by
  rw [← List.reverse_append, List.takeWhile_append_dropWhile, List.reverse_reverse]

theorem countTokensAux_trimJS (s : JSStr) :
    countTokensAux (trimJS s) false = countTokensAux s false := by
  have h1 : countTokensAux (s.dropWhile jsIsWhitespace) false = countTokensAux s false :=
    countTokensAux_dropWhile_ws s
  rw [← h1]
  set m := s.dropWhile jsIsWhitespace with hm
  have hws : ∀ u ∈ (m.reverse.takeWhile jsIsWhitespace).reverse, jsIsWhitespace u = true := by
    intro u hu
    rw [List.mem_reverse] at hu
    exact List.mem_takeWhile_imp hu
  have h2 := countTokensAux_append_ws ((m.reverse.dropWhile jsIsWhitespace).reverse)
    ((m.reverse.takeWhile jsIsWhitespace).reverse) hws false
  rw [rev_trim_decomp jsIsWhitespace m] at h2
  exact h2.symm ▸ (by rw [trimJS, hm])

theorem word_count_eq_specTokenCount (value : JSStr) :
    (computeProperties value).word_count = specTokenCount value := by
  have hb := (splitWsSingle_filter_length (trimJS value)).1
  show (wordsOf value).length = specTokenCount value
  rw [wordsOf, hb, countTokensAux_trimJS, specTokenCount]

/-! ### Helper lemmas about filters and the matcher -/

theorem isEmptyFilter_iff (f : FilterStringsDto) :
    isEmptyFilter f = true ↔ f = {} := by
  obtain ⟨a, b, c, d, e⟩ := f
  cases a <;> cases b <;> cases c <;> cases d <;> cases e <;>
    simp [isEmptyFilter, FilterStringsDto.mk.injEq]

theorem and_shuffle (a1 a2 b1 b2 c1 c2 d1 d2 e1 e2 : Bool) :
    (((((a1 && a2) && (b1 && b2)) && (c1 && c2)) && (d1 && d2)) && (e1 && e2)) =
    (((((a1 && b1) && c1) && d1) && e1) && ((((a2 && b2) && c2) && d2) && e2)) := by
  cases a1 <;> cases a2 <;> cases b1 <;> cases b2 <;> cases c1 <;> cases c2 <;>
    cases d1 <;> cases d2 <;> cases e1 <;> cases e2 <;> rfl

theorem clausePalindrome_merge (r : AnalyzedString) (f1 f2 : FilterStringsDto)
    (h : (f1.is_palindrome.isNone || f2.is_palindrome.isNone) = true) :
    clausePalindrome r (mergeFilters f1 f2) =
      (clausePalindrome r f1 && clausePalindrome r f2) := by
  cases h1 : f1.is_palindrome <;> cases h2 : f2.is_palindrome <;>
    simp_all [clausePalindrome, mergeFilters, Option.isNone_some]

theorem clauseMinLength_merge (r : AnalyzedString) (f1 f2 : FilterStringsDto)
    (h : (f1.min_length.isNone || f2.min_length.isNone) = true) :
    clauseMinLength r (mergeFilters f1 f2) =
      (clauseMinLength r f1 && clauseMinLength r f2) := by
  cases h1 : f1.min_length <;> cases h2 : f2.min_length <;>
    simp_all [clauseMinLength, mergeFilters, Option.isNone_some]

theorem clauseMaxLength_merge (r : AnalyzedString) (f1 f2 : FilterStringsDto)
    (h : (f1.max_length.isNone || f2.max_length.isNone) = true) :
    clauseMaxLength r (mergeFilters f1 f2) =
      (clauseMaxLength r f1 && clauseMaxLength r f2) := by
  cases h1 : f1.max_length <;> cases h2 : f2.max_length <;>
    simp_all [clauseMaxLength, mergeFilters, Option.isNone_some]

theorem clauseWordCount_merge (r : AnalyzedString) (f1 f2 : FilterStringsDto)
    (h : (f1.word_count.isNone || f2.word_count.isNone) = true) :
    clauseWordCount r (mergeFilters f1 f2) =
      (clauseWordCount r f1 && clauseWordCount r f2) := by
  cases h1 : f1.word_count <;> cases h2 : f2.word_count <;>
    simp_all [clauseWordCount, mergeFilters, Option.isNone_some]

theorem clauseContainsCharacter_merge (r : AnalyzedString) (f1 f2 : FilterStringsDto)
    (h : (f1.contains_character.isNone || f2.contains_character.isNone) = true) :
    clauseContainsCharacter r (mergeFilters f1 f2) =
      (clauseContainsCharacter r f1 && clauseContainsCharacter r f2) := by
  cases h1 : f1.contains_character <;> cases h2 : f2.contains_character <;>
    simp_all [clauseContainsCharacter, mergeFilters, Option.isNone_some]

/-! ### Characterization of the vowel rules -/

theorem parse_contains_character_of_vowel (q : JSStr)
    (h : containsSub (lowerJS q) (jstr ("vowel")) = true) :
    ∃ v, [97, 101, 105, 111, 117].find? (fun v => containsSub (lowerJS q) [v]) = some v ∧
      (parseNaturalLanguageQuery q).contains_character = some [v] := by
  have he : (101 : Nat) ∈ lowerJS q := mem_of_containsSub h 101 (by decide)
  have hce : containsSub (lowerJS q) [101] = true := (containsSub_singleton _ _).mpr he
  obtain ⟨v, hv⟩ :
      ∃ v, [97, 101, 105, 111, 117].find? (fun v => containsSub (lowerJS q) [v]) = some v := by
    cases hf : [97, 101, 105, 111, 117].find? (fun v => containsSub (lowerJS q) [v]) with
    | some v => exact ⟨v, rfl⟩
    | none =>
      rw [List.find?_eq_none] at hf
      exact absurd hce (hf 101 (by decide))
  refine ⟨v, hv, ?_⟩
  simp only [parseNaturalLanguageQuery, ruleVowelScan, h, if_true, hv]

/-! ### Claim theorems -/

/-- C1 (corrected): the sum of the values of `character_frequency_map`
equals the number of code points iterated by `for...of`, hence it equals
`length` for every input without surrogate code units (no astral
characters); `length` itself counts UTF-16 code units, so the two sides
differ on astral input. -/
theorem c1_frequency_sum (value : JSStr) :
    freqSum (computeProperties value).character_frequency_map =
      (codePoints value).length ∧
    ((∀ u ∈ value, ¬(0xD800 ≤ u ∧ u ≤ 0xDBFF)) →
      freqSum (computeProperties value).character_frequency_map =
        (computeProperties value).length) := by
  have h1 : freqSum (computeProperties value).character_frequency_map =
      (codePoints value).length := by
    show freqSum ((codePoints value).foldl incFreq []) = _
    rw [freqSum_foldl]
    simp [freqSum]
  refine ⟨h1, fun h => ?_⟩
  rw [h1]
  show (codePoints value).length = value.length
  rw [codePoints_of_no_surrogate value h]

/-- C1 counterexample: the single-character input U+1F600 (one astral
character, two UTF-16 code units) has `length = 2` while its frequency
values sum to 1, so the frequency-sum invariant fails as stated. -/
theorem c1_counterexample :
    freqSum (computeProperties (jstr ("😀"))).character_frequency_map = 1 ∧
    (computeProperties (jstr ("😀"))).length = 2 := by decide

/-- C1 witness: the amended invariant evaluated on `hello world`. -/
theorem c1_witness :
    (∀ u ∈ jstr ("hello world"), ¬(0xD800 ≤ u ∧ u ≤ 0xDBFF)) ∧
    freqSum (computeProperties (jstr ("hello world"))).character_frequency_map =
      (computeProperties (jstr ("hello world"))).length :=
  ⟨by decide, (c1_frequency_sum (jstr ("hello world"))).2 (by decide)⟩

/-- C2 (corrected): whenever the folded query text contains `vowel`
(with or without `first vowel`), the interpreter sets
`contains_character` to the first vowel among `a, e, i, o, u` that
occurs anywhere in the folded text itself, overwriting any value set by
the explicit-letter rule or the `first vowel` rule; the scan always
succeeds because the token `vowel` itself contains `e`. -/
theorem c2_vowel_scan (q : JSStr)
    (h : containsSub (lowerJS q) (jstr ("vowel")) = true) :
    ∃ v, [97, 101, 105, 111, 117].find? (fun v => containsSub (lowerJS q) [v]) = some v ∧
      (parseNaturalLanguageQuery q).contains_character = some [v] :=
  parse_contains_character_of_vowel q h

/-- C2 counterexample: the claim says rule 8 does not fire when
`first vowel` was matched, so `the first vowel` should keep
`contains_character = 'a'`; the code yields a different value. -/
theorem c2_counterexample :
    containsSub (lowerJS (jstr ("the first vowel"))) (jstr ("first vowel")) = true ∧
    (parseNaturalLanguageQuery (jstr ("the first vowel"))).contains_character ≠
      some (jstr ("a")) := by decide

/-- C2 witness: the vowel scan evaluated on the query `a vowel`. -/
theorem c2_witness :
    containsSub (lowerJS (jstr ("a vowel"))) (jstr ("vowel")) = true ∧
    ∃ v, [97, 101, 105, 111, 117].find?
        (fun v => containsSub (lowerJS (jstr ("a vowel"))) [v]) = some v ∧
      (parseNaturalLanguageQuery (jstr ("a vowel"))).contains_character = some [v] :=
  ⟨by decide, c2_vowel_scan _ (by decide)⟩

/-- C3 (corrected): on a query containing `first vowel`, rule 7 sets
`contains_character = 'a'` but rule 8 then overwrites it with the first
vowel occurring in the folded text, so the result is `'a'` exactly when
the text contains an `a` and otherwise `'e'` (an `e` is always present
inside `first vowel` itself). -/
theorem c3_first_vowel (q : JSStr)
    (h : containsSub (lowerJS q) (jstr ("first vowel")) = true) :
    (parseNaturalLanguageQuery q).contains_character =
      some (if containsSub (lowerJS q) (jstr ("a")) = true then jstr ("a")
            else jstr ("e")) := by
  have hja : jstr ("a") = [97] := by decide
  have hje : jstr ("e") = [101] := by decide
  have hv : containsSub (lowerJS q) (jstr ("vowel")) = true :=
    containsSub_trans h (by decide)
  obtain ⟨v, hfind, hcc⟩ := parse_contains_character_of_vowel q hv
  rw [hcc, hja, hje]
  by_cases ha : containsSub (lowerJS q) [97] = true
  · rw [if_pos ha]
    rw [List.find?_cons] at hfind
    simp only [ha] at hfind
    simp at hfind
    rw [hfind]
  · rw [if_neg ha]
    have h101 : containsSub (lowerJS q) [101] = true :=
      (containsSub_singleton _ _).mpr (mem_of_containsSub h 101 (by decide))
    rw [List.find?_cons] at hfind
    simp only [ha] at hfind
    rw [List.find?_cons] at hfind
    simp only [h101] at hfind
    simp at hfind
    rw [hfind]

/-- C3 counterexample: `strings with the first vowel` contains no `a`,
so the interpreter returns `contains_character = 'e'`, not `'a'`. -/
theorem c3_counterexample :
    containsSub (lowerJS (jstr ("strings with the first vowel"))) (jstr ("first vowel")) = true ∧
    (parseNaturalLanguageQuery (jstr ("strings with the first vowel"))).contains_character =
      some (jstr ("e")) ∧
    jstr ("e") ≠ jstr ("a") := by decide

/-- C3 witness: the amended rule evaluated on the query `first vowel`. -/
theorem c3_witness :
    containsSub (lowerJS (jstr ("first vowel"))) (jstr ("first vowel")) = true ∧
    (parseNaturalLanguageQuery (jstr ("first vowel"))).contains_character =
      some (if containsSub (lowerJS (jstr ("first vowel"))) (jstr ("a")) = true
            then jstr ("a") else jstr ("e")) :=
  ⟨by decide, c3_first_vowel _ (by decide)⟩

/-- C4 (code bug): a `<N> characters long` query is not recognized by
the exact-length regular expression `/length (?:of )?(\d+)/` at all, so
`strings 10 characters long` parses to the empty filter, while the
`length of <N>` form does set both bounds and does overwrite
rules 3 and 4. -/
theorem c4_characters_long_unrecognized :
    parseNaturalLanguageQuery (jstr ("strings 10 characters long")) = {} ∧
    parseNaturalLanguageQuery (jstr ("strings with length of 7")) =
      { min_length := some 7, max_length := some 7 } ∧
    parseNaturalLanguageQuery (jstr ("longer than 3 length of 7")) =
      { min_length := some 7, max_length := some 7 } := by decide

/-- C5 (corrected): for a single-character filter that is not one of the
`LIKE` metacharacters `%`, `_` or the escape `\`, the matcher accepts a
record exactly when the character occurs among the characters of the
stored value. -/
theorem c5_contains_character (c : Nat) (r : AnalyzedString)
    (h37 : c ≠ 37) (h95 : c ≠ 95) (h92 : c ≠ 92) :
    (matchesRecord r { contains_character := some [c] } = true ↔
      c ∈ codePoints r.value) := by
  have hpat : codePoints (jstr ("%") ++ [c] ++ jstr ("%")) = [37, c, 37] := by
    show codePoints [37, c, 37] = [37, c, 37]
    simp [codePoints]
  simp only [matchesRecord, clausePalindrome, clauseMinLength, clauseMaxLength,
    clauseWordCount, clauseContainsCharacter]
  simp only [hpat]
  simp [likeMatch_single_pattern_mem c h37 h95 h92]

/-- C5 counterexample: the filter character `_` is a `LIKE` wildcard:
it matches the record `ab` even though `_` does not occur in `ab`. -/
theorem c5_counterexample :
    matchesRecord
        (AnalyzedString.mk (jstr ("k")) (jstr ("ab")) (computeProperties (jstr ("ab"))) 0)
        { contains_character := some (jstr ("_")) } = true ∧
    containsSub (jstr ("ab")) (jstr ("_")) = false := by decide

/-- C5 witness: the amended matcher semantics evaluated at `z` against
the record `xyz`. -/
theorem c5_witness :
    ((122 : Nat) ≠ 37 ∧ (122 : Nat) ≠ 95 ∧ (122 : Nat) ≠ 92) ∧
    (matchesRecord
        (AnalyzedString.mk (jstr ("k")) (jstr ("xyz")) (computeProperties (jstr ("xyz"))) 0)
        { contains_character := some [122] } = true ↔
      (122 : Nat) ∈ codePoints (jstr ("xyz"))) :=
  ⟨⟨by decide, by decide, by decide⟩,
    c5_contains_character 122 _ (by decide) (by decide) (by decide)⟩

/-- C6 (confirmed): `filterByNaturalLanguage` fails (with the
unparsable-query error, its only error) exactly when the interpreter
returns the empty filter; the interpreter itself is a total function
returning a filter for every input string. -/
theorem c6_unparsable_iff_empty (store : List AnalyzedString) (q : JSStr) :
    ((∃ e, filterByNaturalLanguage store q = Except.error e) ↔
      parseNaturalLanguageQuery q = {}) := by
  rw [← isEmptyFilter_iff]
  unfold filterByNaturalLanguage
  by_cases h : isEmptyFilter (parseNaturalLanguageQuery q) = true
  · simp [h]
  · simp [h]

/-- C7 (confirmed): the matcher is the conjunction of its present filter
clauses: the empty filter accepts every record, and merging two filters
with disjoint present fields multiplies the verdicts. -/
theorem c7_matcher_conjunctive :
    (∀ r : AnalyzedString, matchesRecord r {} = true) ∧
    (∀ (r : AnalyzedString) (f1 f2 : FilterStringsDto), disjointFields f1 f2 = true →
      matchesRecord r (mergeFilters f1 f2) =
        (matchesRecord r f1 && matchesRecord r f2)) := by
  constructor
  · intro r
    rfl
  · intro r f1 f2 h
    simp only [disjointFields, Bool.and_eq_true] at h
    obtain ⟨⟨⟨⟨h1, h2⟩, h3⟩, h4⟩, h5⟩ := h
    simp only [matchesRecord]
    rw [clausePalindrome_merge r f1 f2 h1, clauseMinLength_merge r f1 f2 h2,
        clauseMaxLength_merge r f1 f2 h3, clauseWordCount_merge r f1 f2 h4,
        clauseContainsCharacter_merge r f1 f2 h5]
    exact and_shuffle _ _ _ _ _ _ _ _ _ _

/-- C7 witness: conjunctivity evaluated on a concrete record and two
disjoint filters. -/
theorem c7_witness :
    disjointFields { min_length := some 1 } { contains_character := some (jstr ("a")) } = true ∧
    matchesRecord
        (AnalyzedString.mk (jstr ("k")) (jstr ("ab")) (computeProperties (jstr ("ab"))) 0)
        (mergeFilters { min_length := some 1 } { contains_character := some (jstr ("a")) }) =
      (matchesRecord
          (AnalyzedString.mk (jstr ("k")) (jstr ("ab")) (computeProperties (jstr ("ab"))) 0)
          { min_length := some 1 } &&
       matchesRecord
          (AnalyzedString.mk (jstr ("k")) (jstr ("ab")) (computeProperties (jstr ("ab"))) 0)
          { contains_character := some (jstr ("a")) }) :=
  ⟨by decide, c7_matcher_conjunctive.2 _ _ _ (by decide)⟩

/-- C8 (confirmed): `is_palindrome` holds exactly when the string,
lowercased and with all whitespace removed, equals its own reverse; with
the three concrete examples of the specification. -/
theorem c8_palindrome (value : JSStr) :
    ((computeProperties value).is_palindrome = true ↔
      (value.map jsToLower).filter (fun u => !jsIsWhitespace u) =
        ((value.map jsToLower).filter (fun u => !jsIsWhitespace u)).reverse) ∧
    (computeProperties (jstr ("racecar"))).is_palindrome = true ∧
    (computeProperties (jstr ("A man a plan a canal Panama"))).is_palindrome = true ∧
    (computeProperties (jstr ("hello"))).is_palindrome = false := by
  refine ⟨?_, by decide, by decide, by decide⟩
  show ((value.map jsToLower).filter (fun u => !jsIsWhitespace u) ==
      ((value.map jsToLower).filter (fun u => !jsIsWhitespace u)).reverse) = true ↔ _
  exact beq_iff_eq

/-- C9 (code bug): on `shorter than 0` the interpreter emits
`max_length = -1`, violating the non-negativity declared for the field
by the data model (`@Min(0)` on `FilterStringsDto.max_length`). -/
theorem c9_negative_max_length :
    parseNaturalLanguageQuery (jstr ("shorter than 0")) =
      { max_length := some (-1) } := by decide

/-- C10 (confirmed): `word_count` is the number of maximal
whitespace-delimited non-empty tokens, and the edge cases of the
specification hold. -/
theorem c10_word_count (value : JSStr) :
    (computeProperties value).word_count = specTokenCount value ∧
    (computeProperties (jstr (""))).word_count = 0 ∧
    (computeProperties (jstr ("   "))).word_count = 0 ∧
    (computeProperties (jstr ("a  b   c"))).word_count = 3 :=
  ⟨word_count_eq_specTokenCount value, by decide, by decide, by decide⟩

end StringAnalyzer
